import Mathlib

/-!
# Verification of the Sage bot-engine safety layer

A shallow embedding, in Lean 4, of the safety-critical parts of the
Sage trading backend: the per-bot `EmergencyStop` kill switch, the
`CircuitBreaker` throttle, the shared market-data cache, the trading
engine's cooldown filter and hybrid scoring strategy, and the
simulation executor's balance accounting.

Conventions of the embedding:
* JavaScript `number` P&L values and SOL amounts are modelled as `ℚ`;
  lamport amounts (`BN` big integers) and millisecond timestamps are `ℤ`.
* Stateful class methods become pure functions `State → ... → State`
  (together with returned values); `Date.now()` becomes an explicit
  `now : ℤ` argument, and the current UTC date string an explicit
  `today : String` argument.
* Registered trigger callbacks are modelled by their count
  (`nCallbacks`) together with a running total `fired` of callback
  invocations.
* JSON blobs are modelled by an inductive `Json` type;
  `JSON.parse ∘ JSON.stringify` is the identity on such values.
-/

namespace Sage

/-- JSON values, the codomain of `JSON.parse` for the persisted
emergency-stop state blob. -/
inductive Json where
  | null : Json
  | bool (b : Bool) : Json
  | num (q : ℚ) : Json
  | str (s : String) : Json
  | arr (elems : List Json) : Json
  | obj (fields : List (String × Json)) : Json

/-- Property access `parsed.key` on a parsed JSON value: a field lookup on
objects, `undefined` (here `none`) on everything else. -/
def Json.lookup : Json → String → Option Json
  | .obj fields, key => fields.lookup key
  | _, _ => none

/-- `m.set(k, v)` on a JavaScript `Map` modelled as an association list:
the key is (re)bound to `v` and any previous binding for it is dropped. -/
def mapSet {α : Type} (m : List (String × α)) (k : String) (v : α) :
    List (String × α) :=
  (k, v) :: m.filter (fun kv => kv.1 ≠ k)

/-- `m.delete(k)` on a JavaScript `Map` modelled as an association list. -/
def mapDelete {α : Type} (m : List (String × α)) (k : String) :
    List (String × α) :=
  m.filter (fun kv => kv.1 ≠ k)

/-- `m.get(k) ?? 0` for count maps. -/
def mapGetD {α : Type} (m : List (String × α)) (k : String) (d : α) : α :=
  (m.lookup k).getD d

namespace EmergencyStop

/-- `EmergencyStopConfig` from `emergency-stop.ts`. -/
structure Config where
  maxDailyLossSOL : ℚ
  maxTotalLossSOL : ℚ
  maxConsecutiveLosses : ℕ
  maxTxFailuresPerHour : ℕ
  maxApiErrorsPerHour : ℕ
  killSwitchActive : Bool
deriving DecidableEq

/-- `EmergencyStopState` from `emergency-stop.ts`. -/
structure State where
  isTriggered : Bool
  triggerReason : Option String
  triggerTimestamp : Option ℤ
  dailyPnlSOL : ℚ
  totalPnlSOL : ℚ
  consecutiveLosses : ℕ
  dailyResetDate : String
  txFailures : List ℤ
  apiErrors : List ℤ
  totalTriggers : ℕ
deriving DecidableEq

/-- `createInitialState()`; `today` is `new Date().toISOString().slice(0,10)`. -/
def createInitialState (today : String) : State where
  isTriggered := false
  triggerReason := none
  triggerTimestamp := none
  dailyPnlSOL := 0
  totalPnlSOL := 0
  consecutiveLosses := 0
  dailyResetDate := today
  txFailures := []
  apiErrors := []
  totalTriggers := 0

/-- Private `trigger(reason)`: no-op when already triggered, otherwise
records the trigger and fires each of the `nCallbacks` registered
callbacks exactly once (`fired` counts total callback invocations). -/
def trigger (reason : String) (now : ℤ) (nCallbacks : ℕ)
    (s : State) (fired : ℕ) : State × ℕ :=
  if s.isTriggered then (s, fired)
  else
    ({ s with
        isTriggered := true
        triggerReason := some reason
        triggerTimestamp := some now
        totalTriggers := s.totalTriggers + 1 },
      fired + nCallbacks)

/-- Private `checkDailyReset()`: clears daily P&L and consecutive losses
when the current UTC date differs from the stored reset date. -/
def checkDailyReset (today : String) (s : State) : State :=
  if s.dailyResetDate ≠ today then
    { s with dailyPnlSOL := 0, consecutiveLosses := 0, dailyResetDate := today }
  else s

/-- Private `pruneOldFailures()`: drops failure timestamps not newer than
one hour before `now`. -/
def pruneOldFailures (now : ℤ) (s : State) : State :=
  { s with
      txFailures := s.txFailures.filter (fun t => now - 3600000 < t)
      apiErrors := s.apiErrors.filter (fun t => now - 3600000 < t) }

/-- `canTrade()`: the primary gate. Returns `(allowed, reason)` together
with the updated state and callback-invocation count. -/
def canTrade (cfg : Config) (today : String) (now : ℤ) (nCallbacks : ℕ)
    (s : State) (fired : ℕ) : (Bool × Option String) × State × ℕ :=
  let s1 := checkDailyReset today s
  let s2 := pruneOldFailures now s1
  if cfg.killSwitchActive then
    ((false, some "Kill switch activated"), s2, fired)
  else if s2.isTriggered then
    ((false, some ("Emergency stop active: " ++ s2.triggerReason.getD "null")),
      s2, fired)
  else if s2.dailyPnlSOL ≤ -cfg.maxDailyLossSOL then
    let r := "Daily loss limit exceeded: " ++ toString s2.dailyPnlSOL
      ++ " SOL (limit: -" ++ toString cfg.maxDailyLossSOL ++ " SOL)"
    let p := trigger r now nCallbacks s2 fired
    ((false, p.1.triggerReason), p)
  else if s2.totalPnlSOL ≤ -cfg.maxTotalLossSOL then
    let r := "Total loss limit exceeded: " ++ toString s2.totalPnlSOL
      ++ " SOL (limit: -" ++ toString cfg.maxTotalLossSOL ++ " SOL)"
    let p := trigger r now nCallbacks s2 fired
    ((false, p.1.triggerReason), p)
  else if cfg.maxConsecutiveLosses ≤ s2.consecutiveLosses then
    let r := toString s2.consecutiveLosses ++ " consecutive losses (limit: "
      ++ toString cfg.maxConsecutiveLosses ++ ")"
    let p := trigger r now nCallbacks s2 fired
    ((false, p.1.triggerReason), p)
  else if cfg.maxTxFailuresPerHour ≤ s2.txFailures.length then
    let r := toString s2.txFailures.length ++ " tx failures in last hour (limit: "
      ++ toString cfg.maxTxFailuresPerHour ++ ")"
    let p := trigger r now nCallbacks s2 fired
    ((false, p.1.triggerReason), p)
  else if cfg.maxApiErrorsPerHour ≤ s2.apiErrors.length then
    let r := toString s2.apiErrors.length ++ " API errors in last hour (limit: "
      ++ toString cfg.maxApiErrorsPerHour ++ ")"
    let p := trigger r now nCallbacks s2 fired
    ((false, p.1.triggerReason), p)
  else
    ((true, none), s2, fired)

/-- `recordTradeResult(pnlSOL)`. -/
def recordTradeResult (pnlSOL : ℚ) (s : State) : State :=
  let s1 := { s with
    dailyPnlSOL := s.dailyPnlSOL + pnlSOL
    totalPnlSOL := s.totalPnlSOL + pnlSOL }
  if pnlSOL ≤ 0 then { s1 with consecutiveLosses := s1.consecutiveLosses + 1 }
  else { s1 with consecutiveLosses := 0 }

/-- `recordTxFailure()`. -/
def recordTxFailure (now : ℤ) (s : State) : State :=
  { s with txFailures := s.txFailures ++ [now] }

/-- `recordApiError()`. -/
def recordApiError (now : ℤ) (s : State) : State :=
  { s with apiErrors := s.apiErrors ++ [now] }

/-- `reset()`: clears the trigger and rolling windows, preserving the
accumulated P&L counters. -/
def reset (s : State) : State :=
  { s with
      isTriggered := false
      triggerReason := none
      triggerTimestamp := none
      txFailures := []
      apiErrors := [] }

/-- `manualTrigger(reason)`. -/
def manualTrigger (reason : String) (now : ℤ) (nCallbacks : ℕ)
    (s : State) (fired : ℕ) : State × ℕ :=
  trigger ("Manual: " ++ reason) now nCallbacks s fired

/-- `serializeState()`: `JSON.stringify(this.state)`, with the fields in
the declaration order of the state object literal.  `null`-able fields
serialise to JSON null. -/
def serializeState (s : State) : Json :=
  .obj
    [ ("isTriggered", .bool s.isTriggered),
      ("triggerReason", (s.triggerReason.map Json.str).getD .null),
      ("triggerTimestamp",
        (s.triggerTimestamp.map (fun t => Json.num (t : ℚ))).getD .null),
      ("dailyPnlSOL", .num s.dailyPnlSOL),
      ("totalPnlSOL", .num s.totalPnlSOL),
      ("consecutiveLosses", .num (s.consecutiveLosses : ℚ)),
      ("dailyResetDate", .str s.dailyResetDate),
      ("txFailures", .arr (s.txFailures.map (fun t : ℤ => Json.num (t : ℚ)))),
      ("apiErrors", .arr (s.apiErrors.map (fun t : ℤ => Json.num (t : ℚ)))),
      ("totalTriggers", .num (s.totalTriggers : ℚ)) ]

/-- Does the `typeof` validation of `deserializeState` accept the blob?
It requires `parsed.isTriggered` to be a boolean and `parsed.dailyPnlSOL`
and `parsed.totalPnlSOL` to be numbers. -/
def essentialFieldsOk (j : Json) : Bool :=
  (match j.lookup "isTriggered" with | some (.bool _) => true | _ => false) &&
  (match j.lookup "dailyPnlSOL" with | some (.num _) => true | _ => false) &&
  (match j.lookup "totalPnlSOL" with | some (.num _) => true | _ => false)

/-- `deserializeState(json)`: parses the blob, validates the three
essential fields, and returns the parsed value unchanged (the source
casts it to `EmergencyStopState` without further inspection); returns
`null` when validation fails. -/
def deserializeState (j : Json) : Option Json :=
  if essentialFieldsOk j then some j else none

/-- A call into an `EmergencyStop` instance, for reasoning about call
sequences. `canTradeOp` carries the UTC date and clock at which the gate
check runs. -/
inductive Op where
  | canTradeOp (today : String) (now : ℤ)
  | recordTrade (pnlSOL : ℚ)
  | recordTx (now : ℤ)
  | recordApi (now : ℤ)
  | manualTriggerOp (reason : String) (now : ℤ)
  | resetOp
deriving DecidableEq

/-- One call applied to an instance (its state plus the running count of
callback invocations). -/
def step (cfg : Config) (nCallbacks : ℕ) :
    State × ℕ → Op → State × ℕ
  | (s, fired), .canTradeOp today now =>
      (canTrade cfg today now nCallbacks s fired).2
  | (s, fired), .recordTrade p => (recordTradeResult p s, fired)
  | (s, fired), .recordTx now => (recordTxFailure now s, fired)
  | (s, fired), .recordApi now => (recordApiError now s, fired)
  | (s, fired), .manualTriggerOp r now => manualTrigger r now nCallbacks s fired
  | (s, fired), .resetOp => (reset s, fired)

/-- A finite sequence of calls on one instance. -/
def run (cfg : Config) (nCallbacks : ℕ) (init : State × ℕ)
    (ops : List Op) : State × ℕ :=
  ops.foldl (step cfg nCallbacks) init

/-- The P&L values passed to `recordTradeResult` along a call sequence. -/
def allRecorded (ops : List Op) : List ℚ :=
  ops.filterMap (fun op =>
    match op with
    | .recordTrade p => some p
    | _ => none)

/-- Spec-side daily-reset tracking: folds a call sequence into the stored
reset date together with the list of P&L values recorded since the last
daily clear.  A gate check on a date different from the stored one clears
the list (the lazy midnight-UTC reset); everything else leaves the date
alone and appends recorded trades. -/
def gateClears : String × List ℚ → Op → String × List ℚ
  | (d, l), .recordTrade p => (d, l ++ [p])
  | (d, l), .canTradeOp today _ => if d ≠ today then (today, []) else (d, l)
  | (d, l), _ => (d, l)

/-- The P&L values recorded since the last daily clear, starting from
stored reset date `d0`. -/
def recordedSinceReset (d0 : String) (ops : List Op) : List ℚ :=
  (ops.foldl gateClears (d0, [])).2

/-- The consecutive-loss counter as a fold: a non-positive result
increments, a positive one resets to zero. -/
def lossSuffixLen (l : List ℚ) : ℕ :=
  l.foldl (fun n p => if p ≤ 0 then n + 1 else 0) 0

end EmergencyStop

namespace CircuitBreaker

/-- `CircuitBreakerConfig` from `circuit-breaker.ts`. -/
structure Config where
  maxPositionCount : ℕ
  maxPositionsPerPool : ℕ
  maxSinglePositionSOL : ℚ
  maxTotalExposureSOL : ℚ
  maxTxPerMinute : ℕ
  minTimeBetweenTradesMs : ℤ
  maxApiCallsPerMinute : ℕ
deriving DecidableEq

/-- `CircuitBreakerState` from `circuit-breaker.ts`.  The position count
is a JavaScript number that the source clamps with `Math.max(0, ...)`, so
it is modelled as `ℤ`; the exposure is a `BN` (arbitrary-precision signed
integer). -/
structure State where
  totalPositionCount : ℤ
  positionsByPool : List (String × ℕ)
  currentExposureLamports : ℤ
  lastTradeTime : ℤ
  recentTxTimestamps : List ℤ
  recentApiTimestamps : List ℤ
deriving DecidableEq

/-- The constructor's initial state. -/
def initialState : State where
  totalPositionCount := 0
  positionsByPool := []
  currentExposureLamports := 0
  lastTradeTime := 0
  recentTxTimestamps := []
  recentApiTimestamps := []

/-- Private `pruneOldTimestamps()`: drops rolling-window timestamps not
newer than one minute before `now`. -/
def pruneOldTimestamps (now : ℤ) (s : State) : State :=
  { s with
      recentTxTimestamps := s.recentTxTimestamps.filter (fun t => now - 60000 < t)
      recentApiTimestamps := s.recentApiTimestamps.filter (fun t => now - 60000 < t) }

/-- `canOpenPosition(poolAddress, positionAmountLamports)`: the primary
gate.  Prunes the rolling windows, then runs the six checks in source
order; every branch returns the pruned state unchanged otherwise. -/
def canOpenPosition (cfg : Config) (poolAddress : String)
    (positionAmountLamports : ℤ) (now : ℤ) (s : State) :
    (Bool × Option String) × State :=
  let s1 := pruneOldTimestamps now s
  if (cfg.maxPositionCount : ℤ) ≤ s1.totalPositionCount then
    ((false, some ("Max positions reached: " ++ toString s1.totalPositionCount
      ++ "/" ++ toString cfg.maxPositionCount)), s1)
  else if cfg.maxPositionsPerPool ≤ mapGetD s1.positionsByPool poolAddress 0 then
    ((false, some ("Max positions for pool " ++ poolAddress ++ ": "
      ++ toString (mapGetD s1.positionsByPool poolAddress 0)
      ++ "/" ++ toString cfg.maxPositionsPerPool)), s1)
  else if cfg.maxSinglePositionSOL < (positionAmountLamports : ℚ) / 1000000000 then
    ((false, some ("Position size " ++ toString ((positionAmountLamports : ℚ) / 1000000000)
      ++ " SOL exceeds max " ++ toString cfg.maxSinglePositionSOL ++ " SOL")), s1)
  else if cfg.maxTotalExposureSOL <
      ((s1.currentExposureLamports + positionAmountLamports : ℤ) : ℚ) / 1000000000 then
    ((false, some ("Total exposure would be "
      ++ toString (((s1.currentExposureLamports + positionAmountLamports : ℤ) : ℚ) / 1000000000)
      ++ " SOL (max: " ++ toString cfg.maxTotalExposureSOL ++ " SOL)")), s1)
  else if cfg.maxTxPerMinute ≤ s1.recentTxTimestamps.length then
    ((false, some ("TX rate limit: " ++ toString s1.recentTxTimestamps.length
      ++ "/" ++ toString cfg.maxTxPerMinute ++ " per minute")), s1)
  else if now - s1.lastTradeTime < cfg.minTimeBetweenTradesMs then
    ((false, some "Trade cooldown"), s1)
  else
    ((true, none), s1)

/-- `recordPositionOpened(poolAddress, amountLamports)`. -/
def recordPositionOpened (poolAddress : String) (amountLamports : ℤ)
    (now : ℤ) (s : State) : State :=
  { s with
      totalPositionCount := s.totalPositionCount + 1
      positionsByPool := mapSet s.positionsByPool poolAddress
        (mapGetD s.positionsByPool poolAddress 0 + 1)
      currentExposureLamports := s.currentExposureLamports + amountLamports
      lastTradeTime := now
      recentTxTimestamps := s.recentTxTimestamps ++ [now] }

/-- `recordPositionClosed(poolAddress, amountLamports)`: decrements the
count (clamped at zero), removes or decrements the per-pool entry,
subtracts the amount from exposure and clamps a negative result to
zero. -/
def recordPositionClosed (poolAddress : String) (amountLamports : ℤ)
    (now : ℤ) (s : State) : State :=
  let poolCount := mapGetD s.positionsByPool poolAddress 0
  let e := s.currentExposureLamports - amountLamports
  { s with
      totalPositionCount := max 0 (s.totalPositionCount - 1)
      positionsByPool :=
        if poolCount ≤ 1 then mapDelete s.positionsByPool poolAddress
        else mapSet s.positionsByPool poolAddress (poolCount - 1)
      currentExposureLamports := if e < 0 then 0 else e
      lastTradeTime := now
      recentTxTimestamps := s.recentTxTimestamps ++ [now] }

/-- `recordApiCall()`. -/
def recordApiCall (now : ℤ) (s : State) : State :=
  { s with recentApiTimestamps := s.recentApiTimestamps ++ [now] }

/-- `syncWithPositions(positions)`: rebuilds count, per-pool map and
exposure from an authoritative `(poolAddress, entryAmountLamports)`
list. -/
def syncWithPositions (positions : List (String × ℤ)) (s : State) : State :=
  positions.foldl
    (fun acc pos =>
      { acc with
          positionsByPool := mapSet acc.positionsByPool pos.1
            (mapGetD acc.positionsByPool pos.1 0 + 1)
          currentExposureLamports := acc.currentExposureLamports + pos.2 })
    { s with
        totalPositionCount := (positions.length : ℤ)
        positionsByPool := []
        currentExposureLamports := 0 }

/-- An observed open or close event, for reasoning about event
sequences. -/
inductive Event where
  | opened (poolAddress : String) (amountLamports : ℤ) (now : ℤ)
  | closed (poolAddress : String) (amountLamports : ℤ) (now : ℤ)
deriving DecidableEq

/-- Apply one recorded event. -/
def applyEvent (s : State) (e : Event) : State :=
  match e with
  | .opened p a t => recordPositionOpened p a t s
  | .closed p a t => recordPositionClosed p a t s

/-- Apply a finite sequence of recorded events. -/
def runEvents (s : State) (es : List Event) : State :=
  es.foldl applyEvent s

/-- Sum of the opened amounts in an event sequence. -/
def openedSum (es : List Event) : ℤ :=
  (es.filterMap (fun e =>
    match e with
    | .opened _ a _ => some a
    | _ => none)).sum

/-- Sum of the closed amounts in an event sequence. -/
def closedSum (es : List Event) : ℤ :=
  (es.filterMap (fun e =>
    match e with
    | .closed _ a _ => some a
    | _ => none)).sum

/-- The amount carried by an event. -/
def Event.amount : Event → ℤ
  | .opened _ a _ => a
  | .closed _ a _ => a

/-- No close event subtracts more than the exposure accumulated at that
point (starting from exposure `e`): under this condition the per-close
clamp never engages. -/
def noOvershoot : ℤ → List Event → Prop
  | _, [] => True
  | e, .opened _ a _ :: es => noOvershoot (e + a) es
  | e, .closed _ a _ :: es => a ≤ e ∧ noOvershoot (e - a) es

end CircuitBreaker

/-- The slice of `MeteoraPairData` the modelled operations inspect. -/
structure MeteoraPairData where
  address : String
  name : String
deriving DecidableEq

namespace SharedAPICache

/-- Outcome of one outbound `rateLimitedFetch` for a single pool: a 404
response yields `ok none` (the source returns `null` before parsing), any
other non-ok status or network failure is an error, and a successful
response carries the pool record. -/
def FetchOutcome := Except String (Option MeteoraPairData)

/-- Result of one `getPoolData` call: the value (or propagated error),
the cache entry for the key afterwards, whether a stale-cache warning was
logged, and whether an outbound request was issued. -/
structure GetPoolResult where
  result : Except String (Option MeteoraPairData)
  newCache : Option (MeteoraPairData × ℤ)
  warned : Bool
  requested : Bool

/-- `getPoolData(poolAddress)` as a function of the key's cache entry
`cached` (value and fetch timestamp), the clock, and the outcome the
outbound fetch would have.  Mirrors the source: a fresh entry (age below
the 10 s TTL) is returned without fetching; otherwise the fetch runs, a
404 returns null, success repopulates the cache, and any thrown error is
answered with the prior value (with a warning) when one exists and is
rethrown otherwise. -/
def getPoolData (now : ℤ) (cached : Option (MeteoraPairData × ℤ))
    (fetch : FetchOutcome) : GetPoolResult :=
  match cached with
  | some c =>
    if now - c.2 < 10000 then
      { result := .ok (some c.1), newCache := some c,
        warned := false, requested := false }
    else
      match fetch with
      | .ok (some pool) =>
          { result := .ok (some pool), newCache := some (pool, now),
            warned := false, requested := true }
      | .ok none =>
          { result := .ok none, newCache := some c,
            warned := false, requested := true }
      | .error _ =>
          { result := .ok (some c.1), newCache := some c,
            warned := true, requested := true }
  | none =>
    match fetch with
    | .ok (some pool) =>
        { result := .ok (some pool), newCache := some (pool, now),
          warned := false, requested := true }
    | .ok none =>
        { result := .ok none, newCache := none,
          warned := false, requested := true }
    | .error e =>
        { result := .error e, newCache := none,
          warned := false, requested := true }

/-- Shared state of the all-pools cache entry as seen by the synchronous
prologue of `getAllPools` callers.  JavaScript runs each caller's
prologue to completion (no suspension before the first `await`), so
concurrent arrivals are an arbitrary sequence of atomic prologues. -/
structure AllPoolsState where
  cachePresent : Bool
  cacheTimestamp : ℤ
  promiseInstalled : Bool
  requestsIssued : ℕ
  waiters : ℕ
deriving DecidableEq

/-- The all-pools entry before any fetch: `allPoolsCache = null`. -/
def allPoolsInitial : AllPoolsState where
  cachePresent := false
  cacheTimestamp := 0
  promiseInstalled := false
  requestsIssued := 0
  waiters := 0

/-- One `getAllPools()` caller's synchronous prologue: return the cached
list if fresh (age below the 15 s TTL); else join the in-flight
`fetchPromise` when one is installed; else issue the single outbound
request, install its promise (creating a placeholder entry with
timestamp 0 when the cache was empty) and await it. -/
def getAllPoolsArrive (now : ℤ) (s : AllPoolsState) : AllPoolsState :=
  if s.cachePresent && decide (now - s.cacheTimestamp < 15000) then s
  else if s.cachePresent && s.promiseInstalled then
    { s with waiters := s.waiters + 1 }
  else
    { cachePresent := true
      cacheTimestamp := if s.cachePresent then s.cacheTimestamp else 0
      promiseInstalled := true
      requestsIssued := s.requestsIssued + 1
      waiters := s.waiters + 1 }

/-- Per-key view of concurrent `getPoolData` callers during a miss: the
pool cache holds no in-flight promise, so every caller whose prologue
sees the missing entry issues its own outbound request. -/
structure PoolKeyState where
  cached : Bool
  requestsIssued : ℕ
deriving DecidableEq

/-- One `getPoolData` caller's synchronous prologue: a cached fresh entry
is a hit, otherwise the caller goes straight to `rateLimitedFetch` — the
single-pool path installs no coalescing promise, so the cache is still
unpopulated when the next concurrent caller arrives. -/
def getPoolDataArrive (s : PoolKeyState) : PoolKeyState :=
  if s.cached then s else { s with requestsIssued := s.requestsIssued + 1 }

end SharedAPICache

namespace TradingEngine

/-- A rule-scored pool, as produced by `calculateMarketScore`. -/
structure ScoredPool where
  pool : MeteoraPairData
  score : ℚ
deriving DecidableEq

/-- A prediction returned by the remote predictor. -/
structure MLPrediction where
  probability : ℚ
  recommendation : String
deriving DecidableEq

/-- An entry candidate emitted by a scoring strategy; `mlPrediction` is
absent on purely rule-based candidates. -/
structure Candidate where
  pool : MeteoraPairData
  score : ℚ
  mlPrediction : Option MLPrediction
deriving DecidableEq

/-- `b.mlPrediction?.probability ?? 0`, the hybrid ranking key. -/
def probOf (c : Candidate) : ℚ :=
  (c.mlPrediction.map MLPrediction.probability).getD 0

/-- The rule-based stage of `scoreHybrid`: score every eligible pool,
keep those meeting `entryScoreThreshold`, sort by score descending
(JavaScript `Array.prototype.sort` is stable), take the top 10. -/
def hybridRuleCandidates (scoreFn : MeteoraPairData → ℚ)
    (entryScoreThreshold : ℚ) (pools : List MeteoraPairData) :
    List ScoredPool :=
  ((((pools.map (fun p => ScoredPool.mk p (scoreFn p))).filter
      (fun sp => entryScoreThreshold ≤ sp.score)).insertionSort
      (fun a b => b.score ≤ a.score)).take 10)

/-- `scoreHybrid(pools, slotsAvailable)` with the market-score provider
abstracted as `scoreFn` and the predictor's batch reply as
`predictions` (`none` models a failed/unavailable predictor).  Mirrors
the source: empty rule stage short-circuits; a failed prediction falls
back to the rule candidates capped at the open slots; otherwise only
predictions recommending entry are admitted, ranked by probability. -/
def scoreHybrid (scoreFn : MeteoraPairData → ℚ) (entryScoreThreshold : ℚ)
    (slotsAvailable : ℕ) (pools : List MeteoraPairData)
    (predictions : Option (List MLPrediction)) : List Candidate :=
  let candidates := hybridRuleCandidates scoreFn entryScoreThreshold pools
  if candidates.isEmpty then []
  else
    match predictions with
    | none =>
        ((candidates.map (fun c => Candidate.mk c.pool c.score none)).take
          slotsAvailable)
    | some preds =>
        let results := (candidates.zip preds).filterMap
          (fun cp =>
            if cp.2.recommendation = "enter" then
              some (Candidate.mk cp.1.pool cp.1.score (some cp.2))
            else none)
        ((results.insertionSort (fun a b => probOf b ≤ probOf a)).take
          slotsAvailable)

/-- The scan loop's cooldown test for one pool: allowed when no cooldown
entry exists or when the minutes elapsed since the recorded exit reach
`cooldownMinutes`. -/
def cooldownAllows (cooldowns : List (String × ℤ)) (cooldownMinutes : ℚ)
    (now : ℤ) (addr : String) : Bool :=
  match cooldowns.lookup addr with
  | none => true
  | some exitTimestamp =>
      decide (cooldownMinutes ≤ ((now - exitTimestamp : ℤ) : ℚ) / (1000 * 60))

/-- The scan loop's `afterCooldown` filter over the eligible pools. -/
def filterCooldowns (cooldowns : List (String × ℤ)) (cooldownMinutes : ℚ)
    (now : ℤ) (pools : List MeteoraPairData) : List MeteoraPairData :=
  pools.filter (fun pool => cooldownAllows cooldowns cooldownMinutes now pool.address)

/-- `loadCooldowns(cooldowns)`: restores each persisted entry into the
cooldown map only when it is still strictly within the cooldown
window. -/
def loadCooldowns (cooldownMinutes : ℚ) (now : ℤ)
    (existing : List (String × ℤ)) (input : List (String × ℤ)) :
    List (String × ℤ) :=
  input.foldl
    (fun acc cd =>
      if ((now - cd.2 : ℤ) : ℚ) / (1000 * 60) < cooldownMinutes then
        mapSet acc cd.1 cd.2
      else acc)
    existing

end TradingEngine

namespace SimulationExecutor

/-- The balance-relevant slice of `SimulationExecutor.openPosition`:
`virtualBalanceLamports` is the current virtual balance, `amountX` and
`amountY` the requested deposit, `poolData` the market-data lookup
result and `activeBin` the active-bin fetch outcome (an exception there
is caught and turned into an error result).  Returns
`((success, error), new virtual balance)`.  On success the source
deducts the total deposit plus a 5000-lamport simulated transaction
fee; the only balance gate is the strict comparison
`totalAmount.gt(virtualBalance)`. -/
def openPosition (virtualBalanceLamports : ℤ) (amountX amountY : ℤ)
    (poolData : Option MeteoraPairData) (activeBin : Except String ℤ) :
    (Bool × Option String) × ℤ :=
  let totalAmount := amountX + amountY
  if virtualBalanceLamports < totalAmount then
    ((false, some ("Insufficient balance. Have "
      ++ toString virtualBalanceLamports ++ ", need " ++ toString totalAmount)),
      virtualBalanceLamports)
  else
    match poolData with
    | none => ((false, some "Pool not found"), virtualBalanceLamports)
    | some _ =>
      match activeBin with
      | .error e => ((false, some e), virtualBalanceLamports)
      | .ok _ =>
          ((true, none), virtualBalanceLamports - totalAmount - 5000)

/-- `getBalance()`: returns the virtual balance unchanged. -/
def getBalance (virtualBalanceLamports : ℤ) : ℤ := virtualBalanceLamports

end SimulationExecutor

/-! ## Helper lemmas -/

/-- Every branch of `canOpenPosition` returns the pruned state. -/
theorem CircuitBreaker.canOpenPosition_state (cfg : CircuitBreaker.Config)
    (poolAddress : String) (amount now : ℤ) (s : CircuitBreaker.State) :
    (CircuitBreaker.canOpenPosition cfg poolAddress amount now s).2
      = CircuitBreaker.pruneOldTimestamps now s := by
  unfold CircuitBreaker.canOpenPosition
  dsimp only
  split_ifs <;> rfl

/-! ## Claims -/

/-- C10: whether `canOpenPosition` answers allowed or denied, it leaves
the total position count, the per-pool counts, the current exposure and
the last-trade timestamp unchanged; its only state mutation is pruning
the rolling transaction/API timestamp windows down to entries newer than
one minute before `now` (`pruneOldTimestamps` keeps `t` with
`now - 60000 < t`). -/
theorem c10_canOpenPosition_frame (cfg : CircuitBreaker.Config)
    (poolAddress : String) (amount now : ℤ) (s : CircuitBreaker.State) :
    ((CircuitBreaker.canOpenPosition cfg poolAddress amount now s).2).totalPositionCount
        = s.totalPositionCount ∧
    ((CircuitBreaker.canOpenPosition cfg poolAddress amount now s).2).positionsByPool
        = s.positionsByPool ∧
    ((CircuitBreaker.canOpenPosition cfg poolAddress amount now s).2).currentExposureLamports
        = s.currentExposureLamports ∧
    ((CircuitBreaker.canOpenPosition cfg poolAddress amount now s).2).lastTradeTime
        = s.lastTradeTime ∧
    ((CircuitBreaker.canOpenPosition cfg poolAddress amount now s).2).recentTxTimestamps
        = s.recentTxTimestamps.filter (fun t => now - 60000 < t) ∧
    ((CircuitBreaker.canOpenPosition cfg poolAddress amount now s).2).recentApiTimestamps
        = s.recentApiTimestamps.filter (fun t => now - 60000 < t) := by
  rw [CircuitBreaker.canOpenPosition_state]
  exact ⟨rfl, rfl, rfl, rfl, rfl, rfl⟩

/-- C9: the simulation executor's `openPosition` rejects on balance
grounds only when the requested total strictly exceeds the virtual
balance; on success it deducts the total plus the 5000-lamport simulated
transaction fee, so whenever the total exceeds `balance - 5000` without
exceeding `balance` the open succeeds and the resulting virtual balance
(returned by `getBalance`) is negative. -/
theorem c9_sim_open_negative_balance (balance amountX amountY : ℤ)
    (pool : MeteoraPairData) (bin : ℤ)
    (h : amountX + amountY ≤ balance) :
    (SimulationExecutor.openPosition balance amountX amountY
        (some pool) (.ok bin)).1.1 = true ∧
    SimulationExecutor.getBalance
        (SimulationExecutor.openPosition balance amountX amountY
          (some pool) (.ok bin)).2
      = balance - (amountX + amountY) - 5000 ∧
    (∀ (pd : Option MeteoraPairData) (ab : Except String ℤ),
      balance < amountX + amountY →
      (SimulationExecutor.openPosition balance amountX amountY pd ab).1.1 = false) ∧
    (balance - 5000 < amountX + amountY →
      SimulationExecutor.getBalance
          (SimulationExecutor.openPosition balance amountX amountY
            (some pool) (.ok bin)).2 < 0) := by
  unfold SimulationExecutor.openPosition SimulationExecutor.getBalance
  refine ⟨?_, ?_, ?_, ?_⟩
  · rw [if_neg (not_lt.mpr h)]
  · rw [if_neg (not_lt.mpr h)]
  · intro pd ab hlt
    rw [if_pos hlt]
  · intro hfee
    rw [if_neg (not_lt.mpr h)]
    dsimp only
    linarith

/-- Witness for C9 at a concrete input: balance 10000 lamports, request
7000 lamports — the open succeeds and the virtual balance ends at
−2000 lamports. -/
theorem c9_witness :
    (SimulationExecutor.openPosition 10000 0 7000
        (some ⟨"pool1", "POOL1"⟩) (.ok 0)).1.1 = true ∧
    SimulationExecutor.getBalance
        (SimulationExecutor.openPosition 10000 0 7000
          (some ⟨"pool1", "POOL1"⟩) (.ok 0)).2 < 0 := by
  have h := c9_sim_open_negative_balance 10000 0 7000 ⟨"pool1", "POOL1"⟩ 0
    (by decide)
  exact ⟨h.1, h.2.2.2 (by decide)⟩

/-- C6: when the cached entry for a pool key is expired and the outbound
fetch fails, `getPoolData` answers with the prior cached value and logs a
stale-cache warning; when the entry is still fresh the prior value is
returned without any outbound request; and when no prior value exists a
failing fetch propagates to the caller. -/
theorem c6_stale_on_error (now ts : ℤ) (p : MeteoraPairData) (e : String) :
    (10000 ≤ now - ts →
      (SharedAPICache.getPoolData now (some (p, ts)) (.error e)).result
          = .ok (some p) ∧
      (SharedAPICache.getPoolData now (some (p, ts)) (.error e)).warned = true) ∧
    (now - ts < 10000 → ∀ f : SharedAPICache.FetchOutcome,
      (SharedAPICache.getPoolData now (some (p, ts)) f).result = .ok (some p) ∧
      (SharedAPICache.getPoolData now (some (p, ts)) f).requested = false) ∧
    (SharedAPICache.getPoolData now none (.error e)).result = .error e := by
  unfold SharedAPICache.getPoolData
  refine ⟨fun hexp => ?_, fun hfresh f => ?_, rfl⟩
  · dsimp only
    rw [if_neg (not_lt.mpr hexp)]
    exact ⟨rfl, rfl⟩
  · dsimp only
    rw [if_pos hfresh]
    exact ⟨rfl, rfl⟩

/-- Witness for C6 at concrete inputs: an entry fetched at time 0 queried
at time 20000 (expired) with a failing fetch returns the prior value with
a warning; at time 5000 (fresh) it returns the prior value without a
request; with an empty cache the error propagates. -/
theorem c6_witness :
    ((SharedAPICache.getPoolData 20000 (some (⟨"a", "A"⟩, 0))
        (.error "HTTP 500")).result = .ok (some ⟨"a", "A"⟩) ∧
      (SharedAPICache.getPoolData 20000 (some (⟨"a", "A"⟩, 0))
        (.error "HTTP 500")).warned = true) ∧
    ((SharedAPICache.getPoolData 5000 (some (⟨"a", "A"⟩, 0))
        (.error "HTTP 500")).result = .ok (some ⟨"a", "A"⟩) ∧
      (SharedAPICache.getPoolData 5000 (some (⟨"a", "A"⟩, 0))
        (.error "HTTP 500")).requested = false) ∧
    (SharedAPICache.getPoolData 20000 none
        (.error "HTTP 500")).result = .error "HTTP 500" := by
  refine ⟨(c6_stale_on_error 20000 0 ⟨"a", "A"⟩ "HTTP 500").1 (by decide),
    ?_, (c6_stale_on_error 20000 0 ⟨"a", "A"⟩ "HTTP 500").2.2⟩
  exact (c6_stale_on_error 5000 0 ⟨"a", "A"⟩ "HTTP 500").2.1 (by decide)
    (.error "HTTP 500")

/-- After the first arrival, every further concurrent `getAllPools`
caller joins the installed in-flight promise: the iterated prologue state
is exactly one issued request with all callers waiting. -/
theorem SharedAPICache.getAllPools_iterate (now : ℤ) (hnow : 15000 ≤ now) :
    ∀ n, 1 ≤ n →
      (SharedAPICache.getAllPoolsArrive now)^[n] SharedAPICache.allPoolsInitial
        = ⟨true, 0, true, 1, n⟩ := by
  intro n hn
  induction n with
  | zero => omega
  | succ k ih =>
    rcases Nat.lt_or_ge 0 k with hk | hk
    · rw [Function.iterate_succ_apply', ih hk]
      have hfresh : ¬ (now - 0 < 15000) := by omega
      simp [SharedAPICache.getAllPoolsArrive, hfresh]
      all_goals omega
    · interval_cases k
      simp [SharedAPICache.getAllPoolsArrive, SharedAPICache.allPoolsInitial]

/-- Concurrent `getPoolData` misses never populate the cache before
resolution, so each arrival issues its own outbound request. -/
theorem SharedAPICache.getPoolData_iterate :
    ∀ m : ℕ, SharedAPICache.getPoolDataArrive^[m] ⟨false, 0⟩
      = ⟨false, m⟩ := by
  intro m
  induction m with
  | zero => rfl
  | succ k ih =>
    rw [Function.iterate_succ_apply', ih]
    rfl

/-- C5 counterexample: with an empty single-pool cache, two concurrent
`getPoolData` callers for the same key issue two outbound requests, not
one — the single-pool path installs no coalescing promise (unlike
`getAllPools`). -/
theorem c5_counterexample :
    (SharedAPICache.getPoolDataArrive^[2] ⟨false, 0⟩).requestsIssued = 2 ∧
    (SharedAPICache.getPoolDataArrive^[2] ⟨false, 0⟩).requestsIssued ≠ 1 := by
  rw [SharedAPICache.getPoolData_iterate 2]
  exact ⟨rfl, by decide⟩

/-- C5 (amended): request coalescing holds for `getAllPools` — given N
concurrent callers during a miss, exactly one outbound request is issued
and all N await that single in-flight promise, hence resolve to the same
value; `getPoolData`, by contrast, performs no coalescing: M concurrent
callers during a miss issue M outbound requests. -/
theorem c5_amended_coalescing (n : ℕ) (now : ℤ) (v : List MeteoraPairData)
    (hn : 1 ≤ n) (hnow : 15000 ≤ now) :
    ((SharedAPICache.getAllPoolsArrive now)^[n]
        SharedAPICache.allPoolsInitial).requestsIssued = 1 ∧
    ((SharedAPICache.getAllPoolsArrive now)^[n]
        SharedAPICache.allPoolsInitial).waiters = n ∧
    List.replicate
        ((SharedAPICache.getAllPoolsArrive now)^[n]
          SharedAPICache.allPoolsInitial).waiters v
      = List.replicate n v ∧
    (∀ m : ℕ,
      (SharedAPICache.getPoolDataArrive^[m] ⟨false, 0⟩).requestsIssued = m) := by
  rw [SharedAPICache.getAllPools_iterate now hnow n hn]
  refine ⟨rfl, rfl, rfl, fun m => ?_⟩
  rw [SharedAPICache.getPoolData_iterate m]

/-- Witness for the amended C5 at concrete inputs: three concurrent
`getAllPools` callers at clock 20000 issue one request and all three
wait on it. -/
theorem c5_amended_witness :
    ((SharedAPICache.getAllPoolsArrive 20000)^[3]
        SharedAPICache.allPoolsInitial).requestsIssued = 1 ∧
    ((SharedAPICache.getAllPoolsArrive 20000)^[3]
        SharedAPICache.allPoolsInitial).waiters = 3 := by
  have h := c5_amended_coalescing 3 20000 [] (by decide) (by decide)
  exact ⟨h.1, h.2.1⟩

/-- Entries produced by `loadCooldowns` either were already in the map or
come from the restored list and are strictly within the cooldown
window. -/
theorem TradingEngine.loadCooldowns_mem (m : ℚ) (now : ℤ) :
    ∀ (input existing : List (String × ℤ)) (kv : String × ℤ),
      kv ∈ TradingEngine.loadCooldowns m now existing input →
      kv ∈ existing ∨
        (kv ∈ input ∧ ((now - kv.2 : ℤ) : ℚ) < m * (1000 * 60)) := by
  intro input
  induction input with
  | nil => exact fun existing kv h => Or.inl h
  | cons cd rest ih =>
    intro existing kv h
    rw [TradingEngine.loadCooldowns, List.foldl_cons] at h
    rcases ih _ kv h with hex | ⟨hin, hw⟩
    · by_cases hc : ((now - cd.2 : ℤ) : ℚ) / (1000 * 60) < m
      · rw [if_pos hc] at hex
        rcases List.mem_cons.mp hex with heq | hmem
        · refine Or.inr ⟨?_, ?_⟩
          · rw [heq]
            exact List.mem_cons_self _ _
          · rw [heq]
            exact (div_lt_iff₀ (by norm_num)).mp hc
        · exact Or.inl (List.mem_filter.mp hmem).1
      · rw [if_neg hc] at hex
        exact Or.inl hex
    · exact Or.inr ⟨List.mem_cons_of_mem _ hin, hw⟩

/-- C7: a pool with a recorded cooldown exit timestamp `t` is excluded
from the scan's candidate set exactly when `now - t` is below
`cooldownMinutes` minutes (`cooldownMinutes · 60 · 1000` ms); and every
cooldown entry `loadCooldowns` restores into an empty map comes from the
persisted list and is still strictly within that window. -/
theorem c7_cooldown_filter (cooldowns : List (String × ℤ)) (m : ℚ)
    (now : ℤ) (pools : List MeteoraPairData) (pool : MeteoraPairData)
    (hp : pool ∈ pools) :
    (pool ∉ TradingEngine.filterCooldowns cooldowns m now pools ↔
      ∃ t, cooldowns.lookup pool.address = some t ∧
        ((now - t : ℤ) : ℚ) < m * (1000 * 60)) ∧
    (∀ (input : List (String × ℤ)) (kv : String × ℤ),
      kv ∈ TradingEngine.loadCooldowns m now [] input →
      kv ∈ input ∧ ((now - kv.2 : ℤ) : ℚ) < m * (1000 * 60)) := by
  constructor
  · have hmem : pool ∈ TradingEngine.filterCooldowns cooldowns m now pools ↔
        TradingEngine.cooldownAllows cooldowns m now pool.address = true := by
      simp [TradingEngine.filterCooldowns, List.mem_filter, hp]
    rw [hmem]
    unfold TradingEngine.cooldownAllows
    cases h : cooldowns.lookup pool.address with
    | none => simp [h]
    | some t =>
      simp only [h, decide_eq_true_eq, Option.some.injEq]
      constructor
      · intro hnot
        exact ⟨t, rfl, (div_lt_iff₀ (by norm_num)).mp (not_le.mp hnot)⟩
      · rintro ⟨t', ht', hw⟩
        rw [← ht'] at hw
        exact not_le.mpr ((div_lt_iff₀ (by norm_num)).mpr hw)
  · intro input kv h
    rcases TradingEngine.loadCooldowns_mem m now input [] kv h with hex | hgood
    · exact absurd hex (List.not_mem_nil kv)
    · exact hgood

/-- Witness for C7 at concrete inputs: pool "a" closed at time 0,
scanned at `now = 60000` (one minute later) with a five-minute cooldown,
is excluded; and the restored entry `("a", 0)` survives `loadCooldowns`
precisely because it is within the window. -/
theorem c7_witness :
    (⟨"a", "A"⟩ : MeteoraPairData) ∉
      TradingEngine.filterCooldowns [("a", 0)] 5 60000 [⟨"a", "A"⟩] ∧
    ("a", (0 : ℤ)) ∈ ([("a", (0 : ℤ))] : List (String × ℤ)) := by
  have h := c7_cooldown_filter [("a", 0)] 5 60000 [⟨"a", "A"⟩] ⟨"a", "A"⟩
    (List.mem_singleton.mpr rfl)
  have hmem : ("a", (0 : ℤ)) ∈ TradingEngine.loadCooldowns 5 60000 [] [("a", 0)] := by
    simp only [TradingEngine.loadCooldowns, List.foldl_cons, List.foldl_nil]
    norm_num [Sage.mapSet]
  exact ⟨h.1.mpr ⟨0, rfl, by norm_num⟩, (h.2 [("a", 0)] ("a", 0) hmem).1⟩

/-- Encoding an integer list as a JSON number array is injective. -/
theorem Json.numList_inj (a b : List ℤ)
    (h : a.map (fun t : ℤ => Json.num (t : ℚ))
      = b.map (fun t : ℤ => Json.num (t : ℚ))) :
    a = b := by
  have hinj : Function.Injective (fun t : ℤ => Json.num (t : ℚ)) := by
    intro x y hxy
    simpa using hxy
  exact List.map_injective_iff.mpr hinj h

/-- C3: deserialising the serialisation of any emergency-stop state
accepts and returns the parsed blob unchanged, and the serialisation is
injective, so the state is recovered exactly; any blob whose
`isTriggered` field is not a boolean, or whose `dailyPnlSOL` or
`totalPnlSOL` field is not a number (including when the field is
missing), deserialises to null. -/
theorem c3_serialization_roundtrip (s : EmergencyStop.State) :
    EmergencyStop.deserializeState (EmergencyStop.serializeState s)
      = some (EmergencyStop.serializeState s) ∧
    (∀ s' : EmergencyStop.State,
      EmergencyStop.serializeState s' = EmergencyStop.serializeState s →
        s' = s) ∧
    (∀ j : Json,
      ((∀ b, j.lookup "isTriggered" ≠ some (.bool b)) ∨
        (∀ q, j.lookup "dailyPnlSOL" ≠ some (.num q)) ∨
        (∀ q, j.lookup "totalPnlSOL" ≠ some (.num q))) →
      EmergencyStop.deserializeState j = none) := by
  refine ⟨rfl, fun s' h => ?_, fun j hj => ?_⟩
  · cases s with
    | mk i r ts d t c dd tx api tt =>
      cases s' with
      | mk i' r' ts' d' t' c' dd' tx' api' tt' =>
        simp only [EmergencyStop.serializeState, Json.obj.injEq,
          List.cons.injEq, Prod.mk.injEq, Json.bool.injEq, Json.num.injEq,
          Json.str.injEq, Json.arr.injEq, true_and, and_true] at h
        obtain ⟨h1, h2, h3, h4, h5, h6, h7, h8, h9, h10⟩ := h
        have htx : tx' = tx := Json.numList_inj _ _ h8
        have hapi : api' = api := Json.numList_inj _ _ h9
        have hr : r' = r := by
          cases r <;> cases r' <;> simp_all
        have hts : ts' = ts := by
          cases ts <;> cases ts' <;> simp_all
        have hc : c' = c := by exact_mod_cast h6
        have htt : tt' = tt := by exact_mod_cast h10
        simp_all
  · have hfalse : EmergencyStop.essentialFieldsOk j = false := by
      unfold EmergencyStop.essentialFieldsOk
      rcases hj with h | h | h
      · have : (match j.lookup "isTriggered" with
            | some (.bool _) => true
            | _ => false) = false := by
          cases hl : j.lookup "isTriggered" with
          | none => rfl
          | some v => cases v <;> first | rfl | exact absurd hl (h _)
        rw [this]
        rfl
      · have : (match j.lookup "dailyPnlSOL" with
            | some (.num _) => true
            | _ => false) = false := by
          cases hl : j.lookup "dailyPnlSOL" with
          | none => rfl
          | some v => cases v <;> first | rfl | exact absurd hl (h _)
        rw [this]
        simp
      · have : (match j.lookup "totalPnlSOL" with
            | some (.num _) => true
            | _ => false) = false := by
          cases hl : j.lookup "totalPnlSOL" with
          | none => rfl
          | some v => cases v <;> first | rfl | exact absurd hl (h _)
        rw [this]
        simp
    simp [EmergencyStop.deserializeState, hfalse]

/-- Witness for C3 at concrete inputs: the initial state round-trips
through serialisation, and the empty JSON object (all three essential
fields missing) deserialises to null. -/
theorem c3_witness :
    EmergencyStop.deserializeState
        (EmergencyStop.serializeState (EmergencyStop.createInitialState "2026-01-01"))
      = some (EmergencyStop.serializeState (EmergencyStop.createInitialState "2026-01-01")) ∧
    EmergencyStop.deserializeState (.obj []) = none := by
  refine ⟨(c3_serialization_roundtrip (EmergencyStop.createInitialState "2026-01-01")).1, ?_⟩
  refine (c3_serialization_roundtrip (EmergencyStop.createInitialState "2026-01-01")).2.2
    (.obj []) (Or.inl fun b hb => ?_)
  simp [Json.lookup] at hb

/-- The recorded position count never becomes negative. -/
theorem CircuitBreaker.count_nonneg :
    ∀ (es : List CircuitBreaker.Event) (s : CircuitBreaker.State),
      0 ≤ s.totalPositionCount →
      0 ≤ (CircuitBreaker.runEvents s es).totalPositionCount := by
  intro es
  induction es with
  | nil => exact fun s h => h
  | cons e rest ih =>
    intro s h
    rw [CircuitBreaker.runEvents, List.foldl_cons]
    apply ih
    cases e with
    | opened p a t =>
        simp only [CircuitBreaker.applyEvent, CircuitBreaker.recordPositionOpened]
        omega
    | closed p a t =>
        simp only [CircuitBreaker.applyEvent, CircuitBreaker.recordPositionClosed]
        exact le_max_left 0 _

/-- Sum decomposition lemmas for event sequences. -/
theorem CircuitBreaker.openedSum_cons_opened (p : String) (a t : ℤ)
    (es : List CircuitBreaker.Event) :
    CircuitBreaker.openedSum (.opened p a t :: es)
      = a + CircuitBreaker.openedSum es := by
  simp [CircuitBreaker.openedSum, List.filterMap_cons]

/-- Closed events do not contribute to the opened sum. -/
theorem CircuitBreaker.openedSum_cons_closed (p : String) (a t : ℤ)
    (es : List CircuitBreaker.Event) :
    CircuitBreaker.openedSum (.closed p a t :: es)
      = CircuitBreaker.openedSum es := by
  simp [CircuitBreaker.openedSum, List.filterMap_cons]

/-- Opened events do not contribute to the closed sum. -/
theorem CircuitBreaker.closedSum_cons_opened (p : String) (a t : ℤ)
    (es : List CircuitBreaker.Event) :
    CircuitBreaker.closedSum (.opened p a t :: es)
      = CircuitBreaker.closedSum es := by
  simp [CircuitBreaker.closedSum, List.filterMap_cons]

/-- A closed event adds its amount to the closed sum. -/
theorem CircuitBreaker.closedSum_cons_closed (p : String) (a t : ℤ)
    (es : List CircuitBreaker.Event) :
    CircuitBreaker.closedSum (.closed p a t :: es)
      = a + CircuitBreaker.closedSum es := by
  simp [CircuitBreaker.closedSum, List.filterMap_cons]

/-- An open adds the amount to the exposure. -/
theorem CircuitBreaker.applyEvent_opened_exposure (s : CircuitBreaker.State)
    (p : String) (a t : ℤ) :
    (CircuitBreaker.applyEvent s (.opened p a t)).currentExposureLamports
      = s.currentExposureLamports + a := rfl

/-- A close subtracts the amount, clamping a negative result to zero. -/
theorem CircuitBreaker.applyEvent_closed_exposure (s : CircuitBreaker.State)
    (p : String) (a t : ℤ) :
    (CircuitBreaker.applyEvent s (.closed p a t)).currentExposureLamports
      = if s.currentExposureLamports - a < 0 then 0
        else s.currentExposureLamports - a := rfl

/-- With non-negative amounts, the recorded exposure never becomes
negative. -/
theorem CircuitBreaker.exposure_nonneg :
    ∀ (es : List CircuitBreaker.Event) (s : CircuitBreaker.State),
      (∀ e ∈ es, 0 ≤ e.amount) →
      0 ≤ s.currentExposureLamports →
      0 ≤ (CircuitBreaker.runEvents s es).currentExposureLamports := by
  intro es
  induction es with
  | nil => exact fun s _ h => h
  | cons e rest ih =>
    intro s hpos h
    rw [CircuitBreaker.runEvents, List.foldl_cons]
    refine ih _ (fun x hx => hpos x (List.mem_cons_of_mem _ hx)) ?_
    have he := hpos e (List.mem_cons_self _ _)
    cases e with
    | opened p a t =>
        rw [CircuitBreaker.applyEvent_opened_exposure]
        simp only [CircuitBreaker.Event.amount] at he
        omega
    | closed p a t =>
        rw [CircuitBreaker.applyEvent_closed_exposure]
        split_ifs with hneg
        · exact le_refl 0
        · omega

/-- The recorded exposure dominates the running sum of opens minus
closes: the per-close clamp can only raise it. -/
theorem CircuitBreaker.exposure_ge :
    ∀ (es : List CircuitBreaker.Event) (s : CircuitBreaker.State),
      s.currentExposureLamports
          + (CircuitBreaker.openedSum es - CircuitBreaker.closedSum es)
        ≤ (CircuitBreaker.runEvents s es).currentExposureLamports := by
  intro es
  induction es with
  | nil =>
    intro s
    simp [CircuitBreaker.runEvents, CircuitBreaker.openedSum,
      CircuitBreaker.closedSum]
  | cons e rest ih =>
    intro s
    rw [CircuitBreaker.runEvents, List.foldl_cons]
    have h := ih (CircuitBreaker.applyEvent s e)
    rw [CircuitBreaker.runEvents] at h
    cases e with
    | opened p a t =>
        rw [CircuitBreaker.openedSum_cons_opened,
          CircuitBreaker.closedSum_cons_opened]
        have hstep := CircuitBreaker.applyEvent_opened_exposure s p a t
        linarith
    | closed p a t =>
        rw [CircuitBreaker.openedSum_cons_closed,
          CircuitBreaker.closedSum_cons_closed]
        have hstep : s.currentExposureLamports - a
            ≤ (CircuitBreaker.applyEvent s (.closed p a t)).currentExposureLamports := by
          rw [CircuitBreaker.applyEvent_closed_exposure]
          split_ifs with hneg
          · omega
          · exact le_refl _
        linarith

/-- When no close overshoots, the clamp never engages and the exposure
is exactly the sum of opens minus closes. -/
theorem CircuitBreaker.exposure_exact :
    ∀ (es : List CircuitBreaker.Event) (s : CircuitBreaker.State) (e : ℤ),
      s.currentExposureLamports = e →
      CircuitBreaker.noOvershoot e es →
      (CircuitBreaker.runEvents s es).currentExposureLamports
        = e + (CircuitBreaker.openedSum es - CircuitBreaker.closedSum es) := by
  intro es
  induction es with
  | nil =>
    intro s e he _
    simp [CircuitBreaker.runEvents, CircuitBreaker.openedSum,
      CircuitBreaker.closedSum, he]
  | cons ev rest ih =>
    intro s e he hov
    rw [CircuitBreaker.runEvents, List.foldl_cons]
    cases ev with
    | opened p a t =>
        simp only [CircuitBreaker.noOvershoot] at hov
        have h := ih (CircuitBreaker.applyEvent s (.opened p a t)) (e + a)
          (by rw [CircuitBreaker.applyEvent_opened_exposure, he]) hov
        rw [CircuitBreaker.runEvents] at h
        rw [h, CircuitBreaker.openedSum_cons_opened,
          CircuitBreaker.closedSum_cons_opened]
        ring
    | closed p a t =>
        simp only [CircuitBreaker.noOvershoot] at hov
        obtain ⟨hle, hov2⟩ := hov
        have hexp : (CircuitBreaker.applyEvent s (.closed p a t)).currentExposureLamports
            = e - a := by
          rw [CircuitBreaker.applyEvent_closed_exposure, he,
            if_neg (by omega : ¬ (e - a < 0))]
        have h := ih (CircuitBreaker.applyEvent s (.closed p a t)) (e - a) hexp hov2
        rw [CircuitBreaker.runEvents] at h
        rw [h, CircuitBreaker.openedSum_cons_closed,
          CircuitBreaker.closedSum_cons_closed]
        ring

/-- The `syncWithPositions` fold accumulates exactly the entry amounts
and leaves the pre-set position count alone. -/
theorem CircuitBreaker.sync_foldl :
    ∀ (ps : List (String × ℤ)) (acc : CircuitBreaker.State),
      (ps.foldl
        (fun acc pos =>
          { acc with
              positionsByPool := mapSet acc.positionsByPool pos.1
                (mapGetD acc.positionsByPool pos.1 0 + 1)
              currentExposureLamports := acc.currentExposureLamports + pos.2 })
        acc).currentExposureLamports
          = acc.currentExposureLamports + (ps.map Prod.snd).sum ∧
      (ps.foldl
        (fun acc pos =>
          { acc with
              positionsByPool := mapSet acc.positionsByPool pos.1
                (mapGetD acc.positionsByPool pos.1 0 + 1)
              currentExposureLamports := acc.currentExposureLamports + pos.2 })
        acc).totalPositionCount = acc.totalPositionCount := by
  intro ps
  induction ps with
  | nil => intro acc; simp
  | cons p rest ih =>
    intro acc
    rw [List.foldl_cons]
    refine ⟨?_, ?_⟩
    · rw [(ih _).1]
      simp only [List.map_cons, List.sum_cons]
      ring
    · rw [(ih _).2]

/-- C1 (amended): the per-close clamp applies at each close rather than
once at the end, so in general the exposure only dominates
`max 0 (Σ opens − Σ closes)`; it equals `Σ opens − Σ closes` (hence the
claimed formula) whenever no close subtracts more than the exposure
accumulated at that point.  The position count is never negative, and
`syncWithPositions` sets the exposure to exactly the sum of the given
`entryAmountLamports` and the count to the list length. -/
theorem c1_exposure_invariant (es : List CircuitBreaker.Event)
    (hpos : ∀ e ∈ es, 0 ≤ e.amount) :
    0 ≤ (CircuitBreaker.runEvents CircuitBreaker.initialState es).totalPositionCount ∧
    max 0 (CircuitBreaker.openedSum es - CircuitBreaker.closedSum es)
      ≤ (CircuitBreaker.runEvents CircuitBreaker.initialState es).currentExposureLamports ∧
    (CircuitBreaker.noOvershoot 0 es →
      (CircuitBreaker.runEvents CircuitBreaker.initialState es).currentExposureLamports
        = CircuitBreaker.openedSum es - CircuitBreaker.closedSum es) ∧
    (∀ (ps : List (String × ℤ)) (s : CircuitBreaker.State),
      (CircuitBreaker.syncWithPositions ps s).currentExposureLamports
          = (ps.map Prod.snd).sum ∧
      (CircuitBreaker.syncWithPositions ps s).totalPositionCount
          = (ps.length : ℤ)) := by
  refine ⟨CircuitBreaker.count_nonneg es _ le_rfl, ?_, ?_, ?_⟩
  · refine max_le (CircuitBreaker.exposure_nonneg es _ hpos le_rfl) ?_
    have h := CircuitBreaker.exposure_ge es CircuitBreaker.initialState
    rw [show CircuitBreaker.initialState.currentExposureLamports = 0 from rfl,
      zero_add] at h
    exact h
  · intro hov
    have h := CircuitBreaker.exposure_exact es CircuitBreaker.initialState 0 rfl hov
    rw [zero_add] at h
    exact h
  · intro ps s
    unfold CircuitBreaker.syncWithPositions
    have h := CircuitBreaker.sync_foldl ps
      { s with
          totalPositionCount := (ps.length : ℤ)
          positionsByPool := []
          currentExposureLamports := 0 }
    refine ⟨?_, ?_⟩
    · rw [h.1]
      simp
    · rw [h.2]

/-- Witness for the amended C1 at a concrete input: open 5 then close 5
on pool "p" — no overshoot, so the exposure returns to 0 and the count
stays non-negative. -/
theorem c1_exposure_witness :
    (CircuitBreaker.runEvents CircuitBreaker.initialState
        [.opened "p" 5 0, .closed "p" 5 1]).currentExposureLamports = 0 ∧
    0 ≤ (CircuitBreaker.runEvents CircuitBreaker.initialState
        [.opened "p" 5 0, .closed "p" 5 1]).totalPositionCount := by
  have h := c1_exposure_invariant [.opened "p" 5 0, .closed "p" 5 1]
    (by decide)
  refine ⟨?_, h.1⟩
  have h3 := h.2.2.1 (by norm_num [CircuitBreaker.noOvershoot])
  simpa [CircuitBreaker.openedSum, CircuitBreaker.closedSum] using h3

/-- C1 counterexample: the clamp is applied at every close, not once at
the end, so after open 5, close 10, open 3 the exposure is 3 while the
claimed formula `max 0 (Σ opens − Σ closes)` gives 0. -/
theorem c1_counterexample :
    (CircuitBreaker.runEvents CircuitBreaker.initialState
        [.opened "p" 5 0, .closed "p" 10 0, .opened "q" 3 0]).currentExposureLamports
      = 3 ∧
    max 0
        (CircuitBreaker.openedSum
            [.opened "p" 5 0, .closed "p" 10 0, .opened "q" 3 0]
          - CircuitBreaker.closedSum
            [.opened "p" 5 0, .closed "p" 10 0, .opened "q" 3 0]) = 0 ∧
    (CircuitBreaker.runEvents CircuitBreaker.initialState
        [.opened "p" 5 0, .closed "p" 10 0, .opened "q" 3 0]).currentExposureLamports
      ≠ max 0
        (CircuitBreaker.openedSum
            [.opened "p" 5 0, .closed "p" 10 0, .opened "q" 3 0]
          - CircuitBreaker.closedSum
            [.opened "p" 5 0, .closed "p" 10 0, .opened "q" 3 0]) := by
  refine ⟨?_, ?_, ?_⟩ <;> decide

/-- `run` unfolds one call at a time. -/
theorem EmergencyStop.run_cons (cfg : EmergencyStop.Config) (n : ℕ)
    (init : EmergencyStop.State × ℕ) (op : EmergencyStop.Op)
    (ops : List EmergencyStop.Op) :
    EmergencyStop.run cfg n init (op :: ops)
      = EmergencyStop.run cfg n (EmergencyStop.step cfg n init op) ops := rfl

/-- `canTrade` touches the P&L bookkeeping fields only through the daily
reset: triggering changes none of them. -/
theorem EmergencyStop.canTrade_pnl_fields (cfg : EmergencyStop.Config)
    (today : String) (now : ℤ) (n : ℕ) (s : EmergencyStop.State) (fired : ℕ) :
    ((EmergencyStop.canTrade cfg today now n s fired).2.1).dailyPnlSOL
        = (EmergencyStop.checkDailyReset today s).dailyPnlSOL ∧
    ((EmergencyStop.canTrade cfg today now n s fired).2.1).totalPnlSOL
        = (EmergencyStop.checkDailyReset today s).totalPnlSOL ∧
    ((EmergencyStop.canTrade cfg today now n s fired).2.1).consecutiveLosses
        = (EmergencyStop.checkDailyReset today s).consecutiveLosses ∧
    ((EmergencyStop.canTrade cfg today now n s fired).2.1).dailyResetDate
        = (EmergencyStop.checkDailyReset today s).dailyResetDate := by
  unfold EmergencyStop.canTrade EmergencyStop.trigger
  dsimp only
  split_ifs <;> exact ⟨rfl, rfl, rfl, rfl⟩

/-- The daily reset keeps the total P&L. -/
theorem EmergencyStop.checkDailyReset_fields (today : String)
    (s : EmergencyStop.State) :
    (EmergencyStop.checkDailyReset today s).totalPnlSOL = s.totalPnlSOL ∧
    (EmergencyStop.checkDailyReset today s).dailyPnlSOL
        = (if s.dailyResetDate ≠ today then 0 else s.dailyPnlSOL) ∧
    (EmergencyStop.checkDailyReset today s).consecutiveLosses
        = (if s.dailyResetDate ≠ today then 0 else s.consecutiveLosses) ∧
    (EmergencyStop.checkDailyReset today s).dailyResetDate
        = (if s.dailyResetDate ≠ today then today else s.dailyResetDate) := by
  unfold EmergencyStop.checkDailyReset
  split_ifs <;> exact ⟨rfl, rfl, rfl, rfl⟩

/-- `recordTradeResult` adds to both P&L counters, bumps or resets the
loss streak, and keeps the reset date. -/
theorem EmergencyStop.recordTradeResult_fields (p : ℚ)
    (s : EmergencyStop.State) :
    (EmergencyStop.recordTradeResult p s).dailyPnlSOL = s.dailyPnlSOL + p ∧
    (EmergencyStop.recordTradeResult p s).totalPnlSOL = s.totalPnlSOL + p ∧
    (EmergencyStop.recordTradeResult p s).consecutiveLosses
        = (if p ≤ 0 then s.consecutiveLosses + 1 else 0) ∧
    (EmergencyStop.recordTradeResult p s).dailyResetDate = s.dailyResetDate := by
  unfold EmergencyStop.recordTradeResult
  dsimp only
  split_ifs <;> exact ⟨rfl, rfl, rfl, rfl⟩

/-- A trigger call leaves the P&L bookkeeping fields alone. -/
theorem EmergencyStop.trigger_pnl_fields (r : String) (now : ℤ) (n : ℕ)
    (s : EmergencyStop.State) (fired : ℕ) :
    ((EmergencyStop.trigger r now n s fired).1).dailyPnlSOL = s.dailyPnlSOL ∧
    ((EmergencyStop.trigger r now n s fired).1).totalPnlSOL = s.totalPnlSOL ∧
    ((EmergencyStop.trigger r now n s fired).1).consecutiveLosses
        = s.consecutiveLosses ∧
    ((EmergencyStop.trigger r now n s fired).1).dailyResetDate
        = s.dailyResetDate := by
  unfold EmergencyStop.trigger
  split_ifs <;> exact ⟨rfl, rfl, rfl, rfl⟩

/-- The loss-streak fold over an appended result. -/
theorem EmergencyStop.lossSuffixLen_append (l : List ℚ) (p : ℚ) :
    EmergencyStop.lossSuffixLen (l ++ [p])
      = (if p ≤ 0 then EmergencyStop.lossSuffixLen l + 1 else 0) := by
  unfold EmergencyStop.lossSuffixLen
  rw [List.foldl_append, List.foldl_cons, List.foldl_nil]

/-- The loss-streak fold computes the length of the longest suffix of
non-positive values. -/
theorem EmergencyStop.lossSuffixLen_eq_takeWhile (l : List ℚ) :
    EmergencyStop.lossSuffixLen l
      = (l.reverse.takeWhile (fun p => decide (p ≤ 0))).length := by
  induction l using List.reverseRecOn with
  | nil => rfl
  | append_singleton xs x ih =>
    rw [EmergencyStop.lossSuffixLen_append, List.reverse_append]
    simp only [List.reverse_cons, List.reverse_nil, List.nil_append,
      List.singleton_append, List.takeWhile_cons]
    by_cases hx : x ≤ 0
    · rw [if_pos hx, if_pos (decide_eq_true hx), List.length_cons, ih]
    · rw [if_neg hx, if_neg (by simp [hx] : ¬ (decide (x ≤ 0) = true))]
      rfl

/-- The main induction for C2: along any call sequence, the total P&L is
the running sum of all recorded results, while the daily P&L and the
loss streak are computed from the values recorded since the last daily
clear (tracked spec-side by the `gateClears` fold). -/
theorem EmergencyStop.run_pnl_spec (cfg : EmergencyStop.Config) (n : ℕ) :
    ∀ (ops : List EmergencyStop.Op) (s : EmergencyStop.State) (fired : ℕ)
      (l : List ℚ),
      s.dailyPnlSOL = l.sum →
      s.consecutiveLosses = EmergencyStop.lossSuffixLen l →
      ((EmergencyStop.run cfg n (s, fired) ops).1.totalPnlSOL
          = s.totalPnlSOL + (EmergencyStop.allRecorded ops).sum) ∧
      ((EmergencyStop.run cfg n (s, fired) ops).1.dailyPnlSOL
          = (ops.foldl EmergencyStop.gateClears (s.dailyResetDate, l)).2.sum) ∧
      ((EmergencyStop.run cfg n (s, fired) ops).1.consecutiveLosses
          = EmergencyStop.lossSuffixLen
              (ops.foldl EmergencyStop.gateClears (s.dailyResetDate, l)).2) := by
  intro ops
  induction ops with
  | nil =>
    intro s fired l hd hc
    refine ⟨?_, ?_, ?_⟩
    · simp [EmergencyStop.run, EmergencyStop.allRecorded]
    · simpa [EmergencyStop.run] using hd
    · simpa [EmergencyStop.run] using hc
  | cons op rest ih =>
    intro s fired l hd hc
    rw [EmergencyStop.run_cons, List.foldl_cons]
    cases op with
    | canTradeOp today now =>
        have hfields := EmergencyStop.canTrade_pnl_fields cfg today now n s fired
        have hreset := EmergencyStop.checkDailyReset_fields today s
        set s' := (EmergencyStop.canTrade cfg today now n s fired).2.1 with hs'
        have hstep : EmergencyStop.step cfg n (s, fired) (.canTradeOp today now)
            = (s', (EmergencyStop.canTrade cfg today now n s fired).2.2) := rfl
        rw [hstep]
        have hgate : EmergencyStop.gateClears (s.dailyResetDate, l)
            (.canTradeOp today now)
            = (if s.dailyResetDate ≠ today then (today, ([] : List ℚ))
                else (s.dailyResetDate, l)) := by
          simp only [EmergencyStop.gateClears]
        rw [hgate]
        by_cases hday : s.dailyResetDate ≠ today
        · rw [if_pos hday]
          have h1 : s'.dailyPnlSOL = ([] : List ℚ).sum := by
            rw [hfields.1, hreset.2.1, if_pos hday, List.sum_nil]
          have h2 : s'.consecutiveLosses
              = EmergencyStop.lossSuffixLen ([] : List ℚ) := by
            rw [hfields.2.2.1, hreset.2.2.1, if_pos hday]
            rfl
          have h3 : s'.dailyResetDate = today := by
            rw [hfields.2.2.2, hreset.2.2.2, if_pos hday]
          have h := ih s' (EmergencyStop.canTrade cfg today now n s fired).2.2 [] h1 h2
          rw [h3] at h
          refine ⟨?_, h.2.1, h.2.2⟩
          · rw [h.1, hfields.2.1, hreset.1]
            simp [EmergencyStop.allRecorded, List.filterMap_cons]
        · rw [if_neg hday]
          have h1 : s'.dailyPnlSOL = l.sum := by
            rw [hfields.1, hreset.2.1, if_neg hday, hd]
          have h2 : s'.consecutiveLosses = EmergencyStop.lossSuffixLen l := by
            rw [hfields.2.2.1, hreset.2.2.1, if_neg hday, hc]
          have h3 : s'.dailyResetDate = s.dailyResetDate := by
            rw [hfields.2.2.2, hreset.2.2.2, if_neg hday]
          have h := ih s' (EmergencyStop.canTrade cfg today now n s fired).2.2 l h1 h2
          rw [h3] at h
          refine ⟨?_, h.2.1, h.2.2⟩
          · rw [h.1, hfields.2.1, hreset.1]
            simp [EmergencyStop.allRecorded, List.filterMap_cons]
    | recordTrade p =>
        have hfields := EmergencyStop.recordTradeResult_fields p s
        have hstep : EmergencyStop.step cfg n (s, fired) (.recordTrade p)
            = (EmergencyStop.recordTradeResult p s, fired) := rfl
        rw [hstep]
        have hgate : EmergencyStop.gateClears (s.dailyResetDate, l)
            (.recordTrade p) = (s.dailyResetDate, l ++ [p]) := by
          simp only [EmergencyStop.gateClears]
        rw [hgate]
        have h1 : (EmergencyStop.recordTradeResult p s).dailyPnlSOL
            = (l ++ [p]).sum := by
          rw [hfields.1, hd, List.sum_append, List.sum_cons, List.sum_nil,
            add_zero]
        have h2 : (EmergencyStop.recordTradeResult p s).consecutiveLosses
            = EmergencyStop.lossSuffixLen (l ++ [p]) := by
          rw [hfields.2.2.1, EmergencyStop.lossSuffixLen_append, hc]
        have h := ih (EmergencyStop.recordTradeResult p s) fired (l ++ [p]) h1 h2
        rw [hfields.2.2.2] at h
        refine ⟨?_, h.2.1, h.2.2⟩
        · rw [h.1, hfields.2.1]
          simp only [EmergencyStop.allRecorded, List.filterMap_cons,
            List.sum_cons]
          ring
    | recordTx now =>
        have hstep : EmergencyStop.step cfg n (s, fired) (.recordTx now)
            = (EmergencyStop.recordTxFailure now s, fired) := rfl
        rw [hstep]
        have hgate : EmergencyStop.gateClears (s.dailyResetDate, l)
            (.recordTx now) = (s.dailyResetDate, l) := by
          simp only [EmergencyStop.gateClears]
        rw [hgate]
        have h := ih (EmergencyStop.recordTxFailure now s) fired l hd hc
        exact ⟨by rw [h.1]; simp [EmergencyStop.allRecorded, List.filterMap_cons,
          EmergencyStop.recordTxFailure], h.2.1, h.2.2⟩
    | recordApi now =>
        have hstep : EmergencyStop.step cfg n (s, fired) (.recordApi now)
            = (EmergencyStop.recordApiError now s, fired) := rfl
        rw [hstep]
        have hgate : EmergencyStop.gateClears (s.dailyResetDate, l)
            (.recordApi now) = (s.dailyResetDate, l) := by
          simp only [EmergencyStop.gateClears]
        rw [hgate]
        have h := ih (EmergencyStop.recordApiError now s) fired l hd hc
        exact ⟨by rw [h.1]; simp [EmergencyStop.allRecorded, List.filterMap_cons,
          EmergencyStop.recordApiError], h.2.1, h.2.2⟩
    | manualTriggerOp r now =>
        have hfields := EmergencyStop.trigger_pnl_fields ("Manual: " ++ r) now n s fired
        have hstep : EmergencyStop.step cfg n (s, fired) (.manualTriggerOp r now)
            = EmergencyStop.manualTrigger r now n s fired := rfl
        rw [hstep]
        have hgate : EmergencyStop.gateClears (s.dailyResetDate, l)
            (.manualTriggerOp r now) = (s.dailyResetDate, l) := by
          simp only [EmergencyStop.gateClears]
        rw [hgate]
        have h1 : (EmergencyStop.manualTrigger r now n s fired).1.dailyPnlSOL
            = l.sum := by rw [show EmergencyStop.manualTrigger r now n s fired
              = EmergencyStop.trigger ("Manual: " ++ r) now n s fired from rfl,
              hfields.1, hd]
        have h2 : (EmergencyStop.manualTrigger r now n s fired).1.consecutiveLosses
            = EmergencyStop.lossSuffixLen l := by
          rw [show EmergencyStop.manualTrigger r now n s fired
            = EmergencyStop.trigger ("Manual: " ++ r) now n s fired from rfl,
            hfields.2.2.1, hc]
        have h := ih (EmergencyStop.manualTrigger r now n s fired).1
          (EmergencyStop.manualTrigger r now n s fired).2 l h1 h2
        have h3 : (EmergencyStop.manualTrigger r now n s fired).1.dailyResetDate
            = s.dailyResetDate := by
          rw [show EmergencyStop.manualTrigger r now n s fired
            = EmergencyStop.trigger ("Manual: " ++ r) now n s fired from rfl,
            hfields.2.2.2]
        rw [h3] at h
        have h4 : (EmergencyStop.manualTrigger r now n s fired).1.totalPnlSOL
            = s.totalPnlSOL := by
          rw [show EmergencyStop.manualTrigger r now n s fired
            = EmergencyStop.trigger ("Manual: " ++ r) now n s fired from rfl,
            hfields.2.1]
        refine ⟨?_, h.2.1, h.2.2⟩
        · rw [h.1, h4]
          simp [EmergencyStop.allRecorded, List.filterMap_cons]
    | resetOp =>
        have hstep : EmergencyStop.step cfg n (s, fired) .resetOp
            = (EmergencyStop.reset s, fired) := rfl
        rw [hstep]
        have hgate : EmergencyStop.gateClears (s.dailyResetDate, l)
            .resetOp = (s.dailyResetDate, l) := by
          simp only [EmergencyStop.gateClears]
        rw [hgate]
        have h := ih (EmergencyStop.reset s) fired l hd hc
        exact ⟨by rw [h.1]; simp [EmergencyStop.allRecorded, List.filterMap_cons,
          EmergencyStop.reset], h.2.1, h.2.2⟩

/-- C2: starting from a fresh emergency stop, after any finite call
sequence the total P&L equals the sum of all recorded results; the daily
P&L equals the sum of the results recorded since the last daily clear
(the clear happening exactly at the first gate check whose UTC date
differs from the stored reset date); and the consecutive-loss counter
equals the length of the longest suffix of non-positive values among
those same results.  In particular, for a sequence consisting only of
`recordTradeResult` calls, the daily and total sums coincide and the
counter is the longest non-positive suffix of the whole sequence. -/
theorem c2_pnl_counters (cfg : EmergencyStop.Config) (n : ℕ) (d0 : String)
    (ops : List EmergencyStop.Op) :
    (EmergencyStop.run cfg n (EmergencyStop.createInitialState d0, 0) ops).1.totalPnlSOL
        = (EmergencyStop.allRecorded ops).sum ∧
    (EmergencyStop.run cfg n (EmergencyStop.createInitialState d0, 0) ops).1.dailyPnlSOL
        = (EmergencyStop.recordedSinceReset d0 ops).sum ∧
    (EmergencyStop.run cfg n (EmergencyStop.createInitialState d0, 0) ops).1.consecutiveLosses
        = ((EmergencyStop.recordedSinceReset d0 ops).reverse.takeWhile
            (fun p => decide (p ≤ 0))).length := by
  have h := EmergencyStop.run_pnl_spec cfg n ops
    (EmergencyStop.createInitialState d0) 0 [] rfl rfl
  refine ⟨?_, ?_, ?_⟩
  · rw [h.1]
    simp [EmergencyStop.createInitialState]
  · exact h.2.1
  · rw [h.2.2, EmergencyStop.lossSuffixLen_eq_takeWhile]
    rfl

/-- The daily reset and the rolling-window prune preserve the trigger
flag and the recorded reason. -/
theorem EmergencyStop.prune_reset_trigger_fields (today : String) (now : ℤ)
    (s : EmergencyStop.State) :
    (EmergencyStop.pruneOldFailures now
        (EmergencyStop.checkDailyReset today s)).isTriggered = s.isTriggered ∧
    (EmergencyStop.pruneOldFailures now
        (EmergencyStop.checkDailyReset today s)).triggerReason
      = s.triggerReason := by
  unfold EmergencyStop.pruneOldFailures EmergencyStop.checkDailyReset
  split_ifs <;> exact ⟨rfl, rfl⟩

/-- On an already-triggered instance with the kill switch off, `canTrade`
denies with the recorded reason, mutating only via the daily reset and
the prune, and fires no callback. -/
theorem EmergencyStop.canTrade_when_triggered (cfg : EmergencyStop.Config)
    (hks : cfg.killSwitchActive = false) (today : String) (now : ℤ) (n : ℕ)
    (s : EmergencyStop.State) (fired : ℕ) (r : String)
    (ht : s.isTriggered = true) (hr : s.triggerReason = some r) :
    EmergencyStop.canTrade cfg today now n s fired
      = ((false, some ("Emergency stop active: " ++ r)),
          EmergencyStop.pruneOldFailures now
            (EmergencyStop.checkDailyReset today s),
          fired) := by
  have hT := (EmergencyStop.prune_reset_trigger_fields today now s).1
  have hR := (EmergencyStop.prune_reset_trigger_fields today now s).2
  unfold EmergencyStop.canTrade
  dsimp only
  rw [if_neg (by simp [hks]), if_pos (by rw [hT, ht]), hR, hr]
  rfl

/-- `recordTradeResult` preserves the trigger flag and reason. -/
theorem EmergencyStop.recordTradeResult_trigger_fields (p : ℚ)
    (s : EmergencyStop.State) :
    (EmergencyStop.recordTradeResult p s).isTriggered = s.isTriggered ∧
    (EmergencyStop.recordTradeResult p s).triggerReason = s.triggerReason := by
  unfold EmergencyStop.recordTradeResult
  dsimp only
  split_ifs <;> exact ⟨rfl, rfl⟩

/-- A trigger call on an already-triggered instance is a no-op: state and
callback count are unchanged. -/
theorem EmergencyStop.trigger_when_triggered (reason : String) (now : ℤ)
    (n : ℕ) (s : EmergencyStop.State) (fired : ℕ)
    (ht : s.isTriggered = true) :
    EmergencyStop.trigger reason now n s fired = (s, fired) := by
  unfold EmergencyStop.trigger
  rw [if_pos ht]

/-- Once triggered with reason `r` (kill switch off), any reset-free call
sequence leaves the instance triggered with the same reason and fires no
further callback. -/
theorem EmergencyStop.run_triggered_invariant (cfg : EmergencyStop.Config)
    (n : ℕ) (r : String) (hks : cfg.killSwitchActive = false) :
    ∀ (ops : List EmergencyStop.Op) (s : EmergencyStop.State) (fired : ℕ),
      s.isTriggered = true → s.triggerReason = some r →
      EmergencyStop.Op.resetOp ∉ ops →
      ((EmergencyStop.run cfg n (s, fired) ops).1.isTriggered = true ∧
        (EmergencyStop.run cfg n (s, fired) ops).1.triggerReason = some r ∧
        (EmergencyStop.run cfg n (s, fired) ops).2 = fired) := by
  intro ops
  induction ops with
  | nil => exact fun s fired ht hr _ => ⟨ht, hr, rfl⟩
  | cons op rest ih =>
    intro s fired ht hr hres
    have hres1 : op ≠ EmergencyStop.Op.resetOp := by
      intro heq
      exact hres (heq ▸ List.mem_cons_self _ _)
    have hres2 : EmergencyStop.Op.resetOp ∉ rest := by
      intro hmem
      exact hres (List.mem_cons_of_mem _ hmem)
    rw [EmergencyStop.run_cons]
    cases op with
    | canTradeOp today now =>
        have hc := EmergencyStop.canTrade_when_triggered cfg hks today now n
          s fired r ht hr
        have hstep : EmergencyStop.step cfg n (s, fired) (.canTradeOp today now)
            = (EmergencyStop.canTrade cfg today now n s fired).2 := rfl
        rw [hstep, hc]
        exact ih _ _ ((EmergencyStop.prune_reset_trigger_fields today now s).1.trans ht)
          (((EmergencyStop.prune_reset_trigger_fields today now s).2).trans hr) hres2
    | recordTrade p =>
        have hstep : EmergencyStop.step cfg n (s, fired) (.recordTrade p)
            = (EmergencyStop.recordTradeResult p s, fired) := rfl
        rw [hstep]
        exact ih _ _
          ((EmergencyStop.recordTradeResult_trigger_fields p s).1.trans ht)
          ((EmergencyStop.recordTradeResult_trigger_fields p s).2.trans hr) hres2
    | recordTx now =>
        have hstep : EmergencyStop.step cfg n (s, fired) (.recordTx now)
            = (EmergencyStop.recordTxFailure now s, fired) := rfl
        rw [hstep]
        exact ih _ _ ht hr hres2
    | recordApi now =>
        have hstep : EmergencyStop.step cfg n (s, fired) (.recordApi now)
            = (EmergencyStop.recordApiError now s, fired) := rfl
        rw [hstep]
        exact ih _ _ ht hr hres2
    | manualTriggerOp r2 now =>
        have hstep : EmergencyStop.step cfg n (s, fired) (.manualTriggerOp r2 now)
            = EmergencyStop.trigger ("Manual: " ++ r2) now n s fired := rfl
        rw [hstep, EmergencyStop.trigger_when_triggered _ _ _ _ _ ht]
        exact ih _ _ ht hr hres2
    | resetOp => exact absurd rfl hres1

/-- C4: once a trigger transition has occurred (recorded reason `r`,
kill switch off), every later `canTrade` along any reset-free call
sequence denies with that same recorded reason, the instance stays
triggered and no callback re-fires (in particular a second trigger
attempt while triggered fires nothing); `reset` clears the trigger; and
a trigger transition from an untriggered state fires each of the `n`
registered callbacks exactly once. -/
theorem c4_trigger_monotonic (cfg : EmergencyStop.Config) (n : ℕ)
    (s : EmergencyStop.State) (fired : ℕ) (r : String)
    (ops : List EmergencyStop.Op)
    (hks : cfg.killSwitchActive = false)
    (ht : s.isTriggered = true) (hr : s.triggerReason = some r)
    (hops : EmergencyStop.Op.resetOp ∉ ops) :
    ((EmergencyStop.run cfg n (s, fired) ops).1.isTriggered = true ∧
      (EmergencyStop.run cfg n (s, fired) ops).1.triggerReason = some r ∧
      (EmergencyStop.run cfg n (s, fired) ops).2 = fired) ∧
    (∀ (l1 l2 : List EmergencyStop.Op) (today : String) (now : ℤ),
      ops = l1 ++ EmergencyStop.Op.canTradeOp today now :: l2 →
      (EmergencyStop.canTrade cfg today now n
          (EmergencyStop.run cfg n (s, fired) l1).1
          (EmergencyStop.run cfg n (s, fired) l1).2).1
        = (false, some ("Emergency stop active: " ++ r))) ∧
    (EmergencyStop.reset
        ((EmergencyStop.run cfg n (s, fired) ops).1)).isTriggered = false ∧
    (∀ (s0 : EmergencyStop.State) (f0 : ℕ) (reason : String) (now : ℤ),
      s0.isTriggered = false →
      (EmergencyStop.trigger reason now n s0 f0).2 = f0 + n ∧
      ((EmergencyStop.trigger reason now n s0 f0).1).isTriggered = true ∧
      ((EmergencyStop.trigger reason now n s0 f0).1).triggerReason
          = some reason) := by
  refine ⟨EmergencyStop.run_triggered_invariant cfg n r hks ops s fired ht hr hops,
    fun l1 l2 today now heq => ?_, rfl, fun s0 f0 reason now h0 => ?_⟩
  · have hl1 : EmergencyStop.Op.resetOp ∉ l1 := by
      intro hmem
      exact hops (heq ▸ List.mem_append_left _ hmem)
    have hinv := EmergencyStop.run_triggered_invariant cfg n r hks l1 s fired
      ht hr hl1
    rw [EmergencyStop.canTrade_when_triggered cfg hks today now n
      (EmergencyStop.run cfg n (s, fired) l1).1
      (EmergencyStop.run cfg n (s, fired) l1).2 r hinv.1 hinv.2.1]
  · unfold EmergencyStop.trigger
    rw [if_neg (by simp [h0])]
    exact ⟨rfl, rfl, rfl⟩

/-- Witness for C4 at concrete inputs: a triggered instance (reason "X",
kill switch off) run through a loss record, a gate check on a new day and
a second manual trigger keeps its reason, fires no callback, and the gate
check in the middle denies with the recorded reason. -/
theorem c4_witness :
    ((EmergencyStop.run ⟨2, 5, 5, 10, 50, false⟩ 1
        ({ EmergencyStop.createInitialState "2026-01-01" with
            isTriggered := true, triggerReason := some "X" }, 0)
        [.recordTrade (-1), .canTradeOp "2026-01-02" 100,
          .manualTriggerOp "again" 200]).1.isTriggered = true ∧
      (EmergencyStop.run ⟨2, 5, 5, 10, 50, false⟩ 1
        ({ EmergencyStop.createInitialState "2026-01-01" with
            isTriggered := true, triggerReason := some "X" }, 0)
        [.recordTrade (-1), .canTradeOp "2026-01-02" 100,
          .manualTriggerOp "again" 200]).1.triggerReason = some "X" ∧
      (EmergencyStop.run ⟨2, 5, 5, 10, 50, false⟩ 1
        ({ EmergencyStop.createInitialState "2026-01-01" with
            isTriggered := true, triggerReason := some "X" }, 0)
        [.recordTrade (-1), .canTradeOp "2026-01-02" 100,
          .manualTriggerOp "again" 200]).2 = 0) ∧
    (EmergencyStop.canTrade ⟨2, 5, 5, 10, 50, false⟩ "2026-01-02" 100 1
        (EmergencyStop.run ⟨2, 5, 5, 10, 50, false⟩ 1
          ({ EmergencyStop.createInitialState "2026-01-01" with
              isTriggered := true, triggerReason := some "X" }, 0)
          [.recordTrade (-1)]).1
        (EmergencyStop.run ⟨2, 5, 5, 10, 50, false⟩ 1
          ({ EmergencyStop.createInitialState "2026-01-01" with
              isTriggered := true, triggerReason := some "X" }, 0)
          [.recordTrade (-1)]).2).1
      = (false, some ("Emergency stop active: " ++ "X")) := by
  have h := c4_trigger_monotonic ⟨2, 5, 5, 10, 50, false⟩ 1
    { EmergencyStop.createInitialState "2026-01-01" with
        isTriggered := true, triggerReason := some "X" } 0 "X"
    [.recordTrade (-1), .canTradeOp "2026-01-02" 100,
      .manualTriggerOp "again" 200]
    rfl rfl rfl (by decide)
  exact ⟨h.1, h.2.1 [.recordTrade (-1)] [.manualTriggerOp "again" 200]
    "2026-01-02" 100 rfl⟩

instance : IsTotal TradingEngine.ScoredPool
    (fun a b => b.score ≤ a.score) :=
  ⟨fun a b => le_total b.score a.score⟩

instance : IsTrans TradingEngine.ScoredPool
    (fun a b => b.score ≤ a.score) :=
  ⟨fun _ _ _ hab hbc => le_trans hbc hab⟩

instance : IsTotal TradingEngine.Candidate
    (fun a b => TradingEngine.probOf b ≤ TradingEngine.probOf a) :=
  ⟨fun a b => le_total (TradingEngine.probOf b) (TradingEngine.probOf a)⟩

instance : IsTrans TradingEngine.Candidate
    (fun a b => TradingEngine.probOf b ≤ TradingEngine.probOf a) :=
  ⟨fun _ _ _ hab hbc => le_trans hbc hab⟩

/-- The rule stage of the hybrid strategy admits exactly pools meeting
the threshold, caps at 10, and is sorted by score descending. -/
theorem TradingEngine.hybridRuleCandidates_spec
    (scoreFn : MeteoraPairData → ℚ) (thr : ℚ)
    (pools : List MeteoraPairData) :
    (∀ sp ∈ TradingEngine.hybridRuleCandidates scoreFn thr pools,
        thr ≤ sp.score ∧ sp.pool ∈ pools ∧ sp.score = scoreFn sp.pool) ∧
    (TradingEngine.hybridRuleCandidates scoreFn thr pools).length ≤ 10 ∧
    List.Sorted (fun a b : TradingEngine.ScoredPool => b.score ≤ a.score)
      (TradingEngine.hybridRuleCandidates scoreFn thr pools) := by
  refine ⟨fun sp hsp => ?_, ?_, ?_⟩
  · unfold TradingEngine.hybridRuleCandidates at hsp
    have h1 := List.mem_of_mem_take hsp
    have h2 := (List.perm_insertionSort _ _).mem_iff.mp h1
    obtain ⟨hmap, hcond⟩ := List.mem_filter.mp h2
    obtain ⟨p, hp, hpe⟩ := List.mem_map.mp hmap
    subst hpe
    exact ⟨by simpa using hcond, hp, rfl⟩
  · exact List.length_take_le _ _
  · exact List.Pairwise.sublist (List.take_sublist _ _)
      (List.sorted_insertionSort _ _)

/-- With the predictor unavailable, the hybrid strategy returns exactly
the top rule candidates for the open slots, carrying no prediction. -/
theorem TradingEngine.scoreHybrid_none (scoreFn : MeteoraPairData → ℚ)
    (thr : ℚ) (slots : ℕ) (pools : List MeteoraPairData) :
    (TradingEngine.scoreHybrid scoreFn thr slots pools none).map
        (fun c => (c.pool, c.score))
      = ((TradingEngine.hybridRuleCandidates scoreFn thr pools).take
          slots).map (fun sp => (sp.pool, sp.score)) ∧
    ∀ c ∈ TradingEngine.scoreHybrid scoreFn thr slots pools none,
      c.mlPrediction = none := by
  unfold TradingEngine.scoreHybrid
  by_cases hempty :
      (TradingEngine.hybridRuleCandidates scoreFn thr pools).isEmpty
  · rw [if_pos hempty]
    have he : TradingEngine.hybridRuleCandidates scoreFn thr pools = [] :=
      List.isEmpty_iff.mp hempty
    simp [he]
  · rw [if_neg hempty]
    dsimp only
    constructor
    · rw [← List.map_take, List.map_map]
      rfl
    · intro c hc
      have h1 := List.mem_of_mem_take hc
      obtain ⟨sp, _, hspe⟩ := List.mem_map.mp h1
      rw [← hspe]

/-- With a predictor reply, the hybrid strategy admits only candidates
the predictor recommends entering, ranked by probability, capped at the
open slots. -/
theorem TradingEngine.scoreHybrid_some (scoreFn : MeteoraPairData → ℚ)
    (thr : ℚ) (slots : ℕ) (pools : List MeteoraPairData)
    (preds : List TradingEngine.MLPrediction) :
    (TradingEngine.scoreHybrid scoreFn thr slots pools (some preds)).length
        ≤ slots ∧
    (∀ c ∈ TradingEngine.scoreHybrid scoreFn thr slots pools (some preds),
      ∃ pr, c.mlPrediction = some pr ∧ pr.recommendation = "enter") ∧
    List.Sorted
      (fun a b : TradingEngine.Candidate =>
        TradingEngine.probOf b ≤ TradingEngine.probOf a)
      (TradingEngine.scoreHybrid scoreFn thr slots pools (some preds)) := by
  unfold TradingEngine.scoreHybrid
  by_cases hempty :
      (TradingEngine.hybridRuleCandidates scoreFn thr pools).isEmpty
  · rw [if_pos hempty]
    simp
  · rw [if_neg hempty]
    dsimp only
    refine ⟨List.length_take_le _ _, fun c hc => ?_,
      List.Pairwise.sublist (List.take_sublist _ _)
        (List.sorted_insertionSort _ _)⟩
    have h1 := List.mem_of_mem_take hc
    have h2 := (List.perm_insertionSort _ _).mem_iff.mp h1
    obtain ⟨cp, _, heq⟩ := List.mem_filterMap.mp h2
    by_cases hrec : cp.2.recommendation = "enter"
    · rw [if_pos hrec] at heq
      obtain rfl := Option.some.inj heq
      exact ⟨cp.2, rfl, hrec⟩
    · rw [if_neg hrec] at heq
      exact absurd heq (by simp)

/-- C8: in hybrid mode the candidate set is the rule-based pools meeting
`entryScoreThreshold`, capped at the top 10 by score (sorted
descending); when the predictor replies, only candidates it recommends
entering are admitted, ranked by ML probability and capped at the open
slots; and when the predictor call fails (no predictions), the scan
yields exactly the top rule-based candidates for the remaining slots
with no ML probability attached. -/
theorem c8_hybrid_scoring (scoreFn : MeteoraPairData → ℚ) (thr : ℚ)
    (slots : ℕ) (pools : List MeteoraPairData) :
    (∀ sp ∈ TradingEngine.hybridRuleCandidates scoreFn thr pools,
        thr ≤ sp.score ∧ sp.pool ∈ pools ∧ sp.score = scoreFn sp.pool) ∧
    (TradingEngine.hybridRuleCandidates scoreFn thr pools).length ≤ 10 ∧
    List.Sorted (fun a b : TradingEngine.ScoredPool => b.score ≤ a.score)
      (TradingEngine.hybridRuleCandidates scoreFn thr pools) ∧
    ((TradingEngine.scoreHybrid scoreFn thr slots pools none).map
        (fun c => (c.pool, c.score))
      = ((TradingEngine.hybridRuleCandidates scoreFn thr pools).take
          slots).map (fun sp => (sp.pool, sp.score))) ∧
    (∀ c ∈ TradingEngine.scoreHybrid scoreFn thr slots pools none,
      c.mlPrediction = none) ∧
    (∀ preds : List TradingEngine.MLPrediction,
      (TradingEngine.scoreHybrid scoreFn thr slots pools (some preds)).length
          ≤ slots ∧
      (∀ c ∈ TradingEngine.scoreHybrid scoreFn thr slots pools (some preds),
        ∃ pr, c.mlPrediction = some pr ∧ pr.recommendation = "enter") ∧
      List.Sorted
        (fun a b : TradingEngine.Candidate =>
          TradingEngine.probOf b ≤ TradingEngine.probOf a)
        (TradingEngine.scoreHybrid scoreFn thr slots pools (some preds))) := by
  obtain ⟨h1, h2, h3⟩ := TradingEngine.hybridRuleCandidates_spec scoreFn thr pools
  obtain ⟨h4, h5⟩ := TradingEngine.scoreHybrid_none scoreFn thr slots pools
  exact ⟨h1, h2, h3, h4, h5,
    fun preds => TradingEngine.scoreHybrid_some scoreFn thr slots pools preds⟩

/-- Witness for C8 at concrete inputs: two pools scored 200 and 100
against threshold 150 leave one rule candidate; with the predictor
unavailable the scan emits it with no ML probability, and its score
meets the threshold. -/
theorem c8_witness :
    ((150 : ℚ) ≤ (⟨⟨"a", "A"⟩, 200⟩ : TradingEngine.ScoredPool).score ∧
      (⟨⟨"a", "A"⟩, 200⟩ : TradingEngine.ScoredPool).pool ∈
        [(⟨"a", "A"⟩ : MeteoraPairData), ⟨"b", "B"⟩] ∧
      (⟨⟨"a", "A"⟩, 200⟩ : TradingEngine.ScoredPool).score
        = (fun p : MeteoraPairData =>
            if p.address = "a" then (200 : ℚ) else 100)
          (⟨⟨"a", "A"⟩, 200⟩ : TradingEngine.ScoredPool).pool) ∧
    (∀ c ∈ TradingEngine.scoreHybrid
        (fun p : MeteoraPairData =>
          if p.address = "a" then (200 : ℚ) else 100)
        150 2 [⟨"a", "A"⟩, ⟨"b", "B"⟩] none,
      c.mlPrediction = none) := by
  have h := c8_hybrid_scoring
    (fun p : MeteoraPairData => if p.address = "a" then (200 : ℚ) else 100)
    150 2 [⟨"a", "A"⟩, ⟨"b", "B"⟩]
  exact ⟨h.1 ⟨⟨"a", "A"⟩, 200⟩ (by decide), h.2.2.2.2.1⟩

end Sage
